import Mathlib

/-!
Verification of the `ip_diffim` PSF-matching / image-differencing engine
specification against the repository's code.

The repository ships the Python layer (`getTemplate.py`, `diffimLib.py`),
its tests (`tests/ImageStatistics.py`, `tests/SubtractExposures.py`) and an
example driver.  The C++ core that the tests exercise (ImageStatistics,
KernelCandidate, the PCA reducer and the spatial solver) is not part of the
source tree; where a claim is decided by that missing core, the definitions
below are modelled from the specification (their doc comments say so
explicitly and name what is missing).  `getTemplate.py` is present in full
and is embedded directly.

Numeric pixel values are modelled over `ℚ`.  Where the code stores an RMS
(a square root), the model carries the squared quantity `rmsSq`; since
`sqrt x = 0 ↔ x = 0` and `sqrt` is injective on nonnegatives, statements
about "RMS = 0" and "same RMS" are settled on the squares.
-/

/-- Error taxonomy of the engine (spec §7).  Only the constructors the
claims need are modelled. -/
inductive DiffimError where
  | insufficientData
  | singularSystem
deriving DecidableEq

/-- One pixel of a masked image: value, mask bit-plane, variance
(`lsst.afw.image.MaskedImageF` pixel triple as set by the tests). -/
structure MPix where
  val : ℚ
  mask : ℕ
  var : ℚ
deriving DecidableEq

/-- A masked image: dimensions plus a pixel function (origin at (0,0)). -/
structure MaskedImageM where
  width : ℕ
  height : ℕ
  pix : ℕ → ℕ → MPix

/-- Modelled from the spec (§4.3, the C++ `ImageStatistics` is not under
src/): a pixel participates in the statistics when it is unmasked; following
the repository's own test `testImageStatisticsNan` (zero-variance pixels make
`apply` fail even when unmasked), a zero-variance pixel is also excluded. -/
def isValidPix (m : MPix) : Bool :=
  decide (m.mask = 0 ∧ m.var ≠ 0)

/-- Row-major list of the coordinates of a `w × h` grid. -/
def gridCoords (w h : ℕ) : List (ℕ × ℕ) :=
  (List.range h).flatMap (fun j => (List.range w).map (fun i => (i, j)))

/-- Modelled from the spec (§4.3): membership in the central
`(2·core+1) × (2·core+1)` sub-window of a `w × h` image (the whole image
when no core is given). -/
def inCoreWindow (w h : ℕ) (core : Option ℕ) (i j : ℕ) : Bool :=
  match core with
  | none => true
  | some c =>
      decide ((w : ℤ) / 2 - c ≤ (i : ℤ) ∧ (i : ℤ) ≤ (w : ℤ) / 2 + c ∧
              (h : ℤ) / 2 - c ≤ (j : ℤ) ∧ (j : ℤ) ≤ (h : ℤ) / 2 + c)

/-- Coordinates of the pixels that contribute to the statistics. -/
def validCoords (img : MaskedImageM) (core : Option ℕ) : List (ℕ × ℕ) :=
  (gridCoords img.width img.height).filter
    (fun p => isValidPix (img.pix p.1 p.2) && inCoreWindow img.width img.height core p.1 p.2)

/-- Values of the contributing pixels. -/
def validVals (img : MaskedImageM) (core : Option ℕ) : List ℚ :=
  (validCoords img core).map (fun p => (img.pix p.1 p.2).val)

/-- Result triple of `ImageStatistics::apply`: mean, squared RMS, pixel
count (`getMean` / `getRms`² / `getNpix`). -/
structure ImStats where
  mean : ℚ
  rmsSq : ℚ
  npix : ℕ
deriving DecidableEq

/-- The mean `apply` computes: unweighted average of the valid values. -/
def statMean (img : MaskedImageM) (core : Option ℕ) : ℚ :=
  (validVals img core).sum / ((validCoords img core).length : ℚ)

/-- The squared RMS `apply` computes: population mean square deviation about
`statMean`. -/
def statRmsSq (img : MaskedImageM) (core : Option ℕ) : ℚ :=
  ((validVals img core).map (fun v => (v - statMean img core) ^ 2)).sum /
    ((validCoords img core).length : ℚ)

/-- Modelled from the spec (§4.3, C++ `ImageStatistics::apply` not under
src/): unweighted mean, population RMS about that mean (carried squared) and
valid-pixel count over the unmasked pixels, optionally restricted to the
central core window; fails with `InsufficientDataError` when the valid-pixel
count is zero.  The input image is never mutated (the function is pure). -/
def imageStatisticsApply (img : MaskedImageM) (core : Option ℕ) : Except DiffimError ImStats :=
  if (validCoords img core).length = 0 then .error .insufficientData
  else .ok ⟨statMean img core, statRmsSq img core, (validCoords img core).length⟩

/-- The 20×20 fully valid image the tests build: arbitrary values, zero
mask, unit variance (`tests/ImageStatistics.py`). -/
def fullGrid20 (f : ℕ → ℕ → ℚ) : MaskedImageM :=
  ⟨20, 20, fun i j => ⟨f i j, 0, 1⟩⟩

/-- The all-invalid 20×20 image of `testImageStatisticsNan`: zero values,
zero mask, zero variance. -/
def nanGrid20 : MaskedImageM :=
  ⟨20, 20, fun _ _ => ⟨0, 0, 0⟩⟩

theorem validCoords_nanGrid20_nil (core : Option ℕ) : validCoords nanGrid20 core = [] := by
  simp [validCoords, nanGrid20, isValidPix]

/-- Helper: with a nonzero valid count, `apply` succeeds with the mean,
squared RMS and count computed over the valid pixels. -/
theorem imageStatisticsApply_eq_ok (img : MaskedImageM) (core : Option ℕ)
    (h : (validCoords img core).length ≠ 0) :
    imageStatisticsApply img core =
      .ok ⟨statMean img core, statRmsSq img core, (validCoords img core).length⟩ := by
  rw [imageStatisticsApply, if_neg h]

/-- C2: for every difference image (with or without a core half-width
argument) whose valid-pixel count is zero, Image Statistics fails with
`InsufficientDataError` instead of returning a result. -/
theorem imageStatistics_zero_count_fails (img : MaskedImageM) (core : Option ℕ)
    (h : (validCoords img core).length = 0) :
    imageStatisticsApply img core = .error .insufficientData := by
  rw [imageStatisticsApply, if_pos h]

/-- Witness for C2 on the image of `testImageStatisticsNan` (all pixels
unmasked but zero-variance), with and without a core argument. -/
theorem imageStatistics_zero_count_fails_witness :
    imageStatisticsApply nanGrid20 none = .error .insufficientData ∧
    imageStatisticsApply nanGrid20 (some 3) = .error .insufficientData :=
  ⟨imageStatistics_zero_count_fails nanGrid20 none
     (by rw [validCoords_nanGrid20_nil]; rfl),
   imageStatistics_zero_count_fails nanGrid20 (some 3)
     (by rw [validCoords_nanGrid20_nil]; rfl)⟩

/-- C3: on a region whose N valid pixels all hold the same constant value v,
Image Statistics returns mean = v, RMS = 0 and valid-pixel count = N. -/
theorem imageStatistics_constant (img : MaskedImageM) (core : Option ℕ) (v : ℚ)
    (hval : ∀ p ∈ validCoords img core, (img.pix p.1 p.2).val = v)
    (hn : (validCoords img core).length ≠ 0) :
    imageStatisticsApply img core = .ok ⟨v, 0, (validCoords img core).length⟩ := by
  have hvals : ∀ x ∈ validVals img core, x = v := by
    intro x hx
    simp only [validVals, List.mem_map] at hx
    obtain ⟨p, hp, rfl⟩ := hx
    exact hval p hp
  have hlen : (validVals img core).length = (validCoords img core).length :=
    List.length_map _ _
  have hnq : ((validCoords img core).length : ℚ) ≠ 0 := by
    exact_mod_cast hn
  have hmean : statMean img core = v := by
    rw [statMean, List.sum_eq_card_nsmul _ v hvals, hlen, nsmul_eq_mul,
        mul_comm, mul_div_assoc, div_self hnq, mul_one]
  have hrms : statRmsSq img core = 0 := by
    have h0 : ∀ y ∈ (validVals img core).map (fun x => (x - statMean img core) ^ 2), y = 0 := by
      intro y hy
      simp only [List.mem_map] at hy
      obtain ⟨x, hx, rfl⟩ := hy
      rw [hvals x hx, hmean]
      ring
    rw [statRmsSq, List.sum_eq_card_nsmul _ 0 h0, smul_zero, zero_div]
  rw [imageStatisticsApply_eq_ok img core hn, hmean, hrms]

/-- On a fully valid image no pixel is excluded: without a core argument the
valid coordinates are the whole grid. -/
theorem validCoords_fullGrid20_none (f : ℕ → ℕ → ℚ) :
    validCoords (fullGrid20 f) none = gridCoords 20 20 := by
  simp [validCoords, fullGrid20, isValidPix, inCoreWindow]

/-- The 20×20 all-ones unit-variance image of `testImageStatisticsOne`. -/
def onesGrid20 : MaskedImageM :=
  fullGrid20 (fun _ _ => 1)

/-- The 20×20 grid has 400 coordinates. -/
theorem gridCoords_20_length : (gridCoords 20 20).length = 400 := by
  set_option maxRecDepth 4000 in decide

/-- Witness for C3 on the image of `testImageStatisticsOne`: mean 1, RMS 0,
400 valid pixels. -/
theorem imageStatistics_constant_witness :
    imageStatisticsApply onesGrid20 none = .ok ⟨1, 0, 400⟩ := by
  have h := imageStatistics_constant onesGrid20 none 1 (fun p _ => rfl)
    (by rw [onesGrid20, validCoords_fullGrid20_none, gridCoords_20_length]; decide)
  rw [h, onesGrid20, validCoords_fullGrid20_none, gridCoords_20_length]

/-- C4: on a fully valid 20×20 region, restricting to core half-width c
(for any c whose central window fits, i.e. c ≤ 9) yields a valid-pixel
count of exactly (2c+1)². -/
theorem imageStatistics_core_count (f : ℕ → ℕ → ℚ) (c : ℕ) (hc : c ≤ 9) :
    ∃ s, imageStatisticsApply (fullGrid20 f) (some c) = .ok s ∧
      s.npix = (2 * c + 1) ^ 2 := by
  have hv : validCoords (fullGrid20 f) (some c) =
      (gridCoords 20 20).filter (fun p => inCoreWindow 20 20 (some c) p.1 p.2) := by
    simp [validCoords, fullGrid20, isValidPix]
  have hlen : (validCoords (fullGrid20 f) (some c)).length = (2 * c + 1) ^ 2 := by
    rw [hv]
    interval_cases c <;> (set_option maxRecDepth 8000 in decide)
  have hne : (validCoords (fullGrid20 f) (some c)).length ≠ 0 := by
    rw [hlen]
    positivity
  exact ⟨_, imageStatisticsApply_eq_ok _ _ hne, hlen⟩

/-- Witness for C4: core half-width 3 on a constant fully valid 20×20 image
reports (2·3+1)² = 49 valid pixels. -/
theorem imageStatistics_core_count_witness :
    3 ≤ 9 ∧ ∃ s, imageStatisticsApply (fullGrid20 (fun _ _ => 0)) (some 3) = .ok s ∧
      s.npix = 49 :=
  ⟨by decide, imageStatistics_core_count (fun _ _ => 0) 3 (by decide)⟩

/-- Replacing the value stored at one pixel while leaving its mask and
variance planes untouched. -/
def setVal (img : MaskedImageM) (i j : ℕ) (q : ℚ) : MaskedImageM :=
  { img with
    pix := fun a b =>
      if a = i ∧ b = j then { img.pix a b with val := q } else img.pix a b }

theorem isValidPix_setVal (img : MaskedImageM) (i j a b : ℕ) (q : ℚ) :
    isValidPix ((setVal img i j q).pix a b) = isValidPix (img.pix a b) := by
  simp only [setVal]
  split <;> rfl

theorem validCoords_setVal (img : MaskedImageM) (core : Option ℕ) (i j : ℕ) (q : ℚ) :
    validCoords (setVal img i j q) core = validCoords img core := by
  unfold validCoords
  refine List.filter_congr ?_
  intro p _
  rw [isValidPix_setVal]
  rfl

theorem validVals_setVal (img : MaskedImageM) (core : Option ℕ) (i j : ℕ) (q : ℚ)
    (hbad : isValidPix (img.pix i j) = false) :
    validVals (setVal img i j q) core = validVals img core := by
  unfold validVals
  rw [validCoords_setVal]
  refine List.map_congr_left ?_
  intro p hp
  have hvalid : isValidPix (img.pix p.1 p.2) = true := by
    have := List.of_mem_filter hp
    exact (Bool.and_eq_true _ _).mp this |>.1
  have hne : ¬(p.1 = i ∧ p.2 = j) := by
    rintro ⟨h1, h2⟩
    rw [h1, h2, hbad] at hvalid
    exact Bool.false_ne_true hvalid
  simp only [setVal]
  rw [if_neg hne]

theorem statMean_setVal (img : MaskedImageM) (core : Option ℕ) (i j : ℕ) (q : ℚ)
    (hbad : isValidPix (img.pix i j) = false) :
    statMean (setVal img i j q) core = statMean img core := by
  rw [statMean, statMean, validCoords_setVal, validVals_setVal img core i j q hbad]

theorem statRmsSq_setVal (img : MaskedImageM) (core : Option ℕ) (i j : ℕ) (q : ℚ)
    (hbad : isValidPix (img.pix i j) = false) :
    statRmsSq (setVal img i j q) core = statRmsSq img core := by
  rw [statRmsSq, statRmsSq, validCoords_setVal, validVals_setVal img core i j q hbad,
      statMean_setVal img core i j q hbad]

/-- C5: Image Statistics is computed over exactly the valid (unmasked)
pixels.  Changing the value stored at an excluded pixel changes nothing, and
a successful result reports the count of valid pixels, the unweighted mean
of their values and the population mean square deviation about that mean. -/
theorem imageStatistics_masked_excluded (img : MaskedImageM) (core : Option ℕ)
    (i j : ℕ) (q : ℚ) (hbad : isValidPix (img.pix i j) = false) :
    imageStatisticsApply (setVal img i j q) core = imageStatisticsApply img core ∧
    (∀ s, imageStatisticsApply img core = .ok s →
      s.npix = (validCoords img core).length ∧
      (s.npix : ℚ) * s.mean = (validVals img core).sum ∧
      (s.npix : ℚ) * s.rmsSq =
        ((validVals img core).map (fun v => (v - s.mean) ^ 2)).sum) := by
  constructor
  · unfold imageStatisticsApply
    rw [validCoords_setVal, statMean_setVal img core i j q hbad,
        statRmsSq_setVal img core i j q hbad]
  · intro s hs
    by_cases h0 : (validCoords img core).length = 0
    · rw [imageStatistics_zero_count_fails img core h0] at hs
      exact absurd hs (by simp)
    · rw [imageStatisticsApply_eq_ok img core h0] at hs
      have hsv : s = ⟨statMean img core, statRmsSq img core,
          (validCoords img core).length⟩ := by
        injection hs with h
        exact h.symm
      subst hsv
      have hnq : ((validCoords img core).length : ℚ) ≠ 0 := by
        exact_mod_cast h0
      refine ⟨rfl, ?_, ?_⟩
      · show ((validCoords img core).length : ℚ) * statMean img core = _
        rw [statMean, mul_comm, div_mul_cancel₀ _ hnq]
      · show ((validCoords img core).length : ℚ) * statRmsSq img core = _
        rw [statRmsSq, mul_comm, div_mul_cancel₀ _ hnq]

/-- The 20×20 image of `testImageStatisticsMask`: value i + 2.3·j, unit
variance, last column (i = 19) masked. -/
def maskGrid20 : MaskedImageM :=
  ⟨20, 20, fun i j => ⟨(i : ℚ) + 23 / 10 * (j : ℚ), if i = 19 then 1 else 0, 1⟩⟩

/-- Witness for C5: rewriting the value stored in the masked pixel (19, 0)
leaves the statistics unchanged. -/
theorem imageStatistics_masked_excluded_witness :
    imageStatisticsApply (setVal maskGrid20 19 0 999) none =
      imageStatisticsApply maskGrid20 none :=
  (imageStatistics_masked_excluded maskGrid20 none 19 0 999 (by decide)).1

/-- Lifecycle status of a kernel candidate (spec §3, §4.4; matches
`afwMath.SpatialCellCandidate.{UNKNOWN, GOOD, BAD}` used by the tests). -/
inductive CandStatus where
  | UNKNOWN
  | GOOD
  | BAD
deriving DecidableEq

/-- Fuel-driven symmetric elimination.  One step pivots on the leading
diagonal entry and forms the Schur complement of the remaining rows; it
fails when a pivot is ≤ 0, which for a symmetric matrix is exactly failure
of positive-definiteness (the Cholesky failure condition).  Rows are
augmented with the right-hand side as a last column; on success the solution
is recovered by back-substitution.  The fuel is the row count, so the
out-of-fuel branch is unreachable when called through `symSolve`. -/
def symSolveAux : ℕ → List (List ℚ) → Option (List ℚ)
  | _, [] => some []
  | 0, _ :: _ => none
  | fuel + 1, (a :: rest) :: rows =>
      if a ≤ 0 then none
      else
        match symSolveAux fuel
            (rows.map (fun r => List.zipWith (fun x y => x - r.headI / a * y) r.tail rest)) with
        | none => none
        | some xs =>
            some (((rest.getLastD 0 - (List.zipWith (fun u v => u * v) rest.dropLast xs).sum) / a)
              :: xs)
  | _ + 1, [] :: _ => none

/-- Modelled from the spec (§4.4 step 3, the C++ `KernelSolution::solve` is
not under src/): a symmetric (Cholesky-equivalent) linear solve of the
augmented normal equations `[M | b]`; returns `none` exactly when the system
is not positive-definite. -/
def symSolve (m : List (List ℚ)) : Option (List ℚ) :=
  symSolveAux m.length m

/-- Modelled from the spec (§3, §4.4, the C++ `KernelCandidate` is not
under src/): a per-region candidate owning its identity, its augmented
normal equations (built from its pixel region and the shared basis), its
current fit coefficients (kernel coefficients then background) and its
lifecycle status. -/
structure KernelCandidate where
  candId : ℕ
  sys : List (List ℚ)
  coeffs : Option (List ℚ)
  status : CandStatus
deriving DecidableEq

/-- Modelled from the spec (§4.4 steps 3–5): solve the candidate's normal
equations.  If the system is not positive-definite the solve fails with
`SingularSystemError`: the candidate is marked BAD and its coefficients keep
their prior state.  On success the coefficients are overwritten and the
candidate is classified GOOD or BAD by the residual-statistics predicate
`accept` (clipping thresholds of §4.4 step 5, kept abstract as a
parameter because the claims settled here do not depend on them). -/
def solveCandidate (accept : List ℚ → Bool) (c : KernelCandidate) : KernelCandidate :=
  match symSolve c.sys with
  | none => { c with status := .BAD }
  | some xs =>
      { c with coeffs := some xs, status := if accept xs then .GOOD else .BAD }

/-- Modelled from the spec (§4.8 step 1, §7): solve every candidate
individually; a failing candidate is marked BAD in place and the sweep
continues — failure is never fatal to the overall fit. -/
def solveAllCandidates (accept : List ℚ → Bool) (cs : List KernelCandidate) :
    List KernelCandidate :=
  cs.map (solveCandidate accept)

/-- C6: when a candidate's normal equations are not positive-definite the
solve fails (`SingularSystemError`), the candidate's status becomes BAD, its
fit coefficients are unchanged from their prior state, and the failure is
never fatal to the overall fit: the whole-set sweep still processes every
candidate, the failing one in place and all others exactly as they would be
processed without it. -/
theorem solveCandidate_singular (accept : List ℚ → Bool) (c : KernelCandidate)
    (h : symSolve c.sys = none) :
    (solveCandidate accept c).status = .BAD ∧
    (solveCandidate accept c).coeffs = c.coeffs ∧
    (∀ pre post : List KernelCandidate,
      solveAllCandidates accept (pre ++ c :: post) =
        solveAllCandidates accept pre ++
          solveCandidate accept c :: solveAllCandidates accept post ∧
      (solveAllCandidates accept (pre ++ c :: post)).length =
        pre.length + 1 + post.length) := by
  refine ⟨?_, ?_, ?_⟩
  · rw [solveCandidate, h]
  · rw [solveCandidate, h]
  · intro pre post
    constructor
    · rw [solveAllCandidates, List.map_append, List.map_cons]
      rfl
    · rw [solveAllCandidates, List.length_map, List.length_append, List.length_cons]
      omega

/-- Witness for C6: a concrete candidate whose 2×2 normal equations
`[[1, 1], [1, 1]]` are singular (second pivot 0): after the solve it is BAD
and its prior coefficients survive. -/
theorem solveCandidate_singular_witness :
    (solveCandidate (fun _ => true)
        ⟨7, [[1, 1, 2], [1, 1, 2]], some [5, 5], .UNKNOWN⟩).status = .BAD ∧
    (solveCandidate (fun _ => true)
        ⟨7, [[1, 1, 2], [1, 1, 2]], some [5, 5], .UNKNOWN⟩).coeffs = some [5, 5] :=
  ⟨(solveCandidate_singular (fun _ => true) _ (by norm_num [symSolve, symSolveAux])).1,
   (solveCandidate_singular (fun _ => true) _ (by norm_num [symSolve, symSolveAux])).2.1⟩

/-- Pointwise sum of a list of equally sized vectors. -/
def sumVecs : List (List ℚ) → List ℚ
  | [] => []
  | [v] => v
  | v :: vs => List.zipWith (fun a b => a + b) v (sumVecs vs)

/-- Rendered kernel image of a coefficient vector over a basis set: the sum
of the coefficient-weighted basis images (spec §4.4 accessors). -/
def renderKernel (basis : List (List ℚ)) (coeffs : List ℚ) : List ℚ :=
  sumVecs (List.zipWith (fun c b => b.map (fun x => c * x)) coeffs basis)

/-- Pointwise mean of a list of equally sized vectors. -/
def meanVec (vs : List (List ℚ)) : List ℚ :=
  (sumVecs vs).map (fun x => x / (vs.length : ℚ))

/-- Modelled from the spec (§4.7, the C++ `KernelPca` is not under src/):
reduce a set of kernel images to a basis whose index 0 is the mean kernel
followed by K components, failing with `InsufficientDataError` when fewer
than K+1 inputs exist.  The eigen-decomposition of the centered covariance
is abstracted — the components are returned as the first K centered inputs —
because the claim settled against this model concerns only the
`InsufficientDataError` guard and the basis shape, not component values. -/
def pcaReduce (K : ℕ) (kernels : List (List ℚ)) : Except DiffimError (List (List ℚ)) :=
  if kernels.length < K + 1 then .error .insufficientData
  else
    .ok (meanVec kernels ::
      (kernels.take K).map (fun v => List.zipWith (fun a b => a - b) v (meanVec kernels)))

/-- The rendered kernel images of the currently GOOD candidates (spec §4.7
input: the GOOD candidates' rendered kernels). -/
def goodKernelImages (basis : List (List ℚ)) (cs : List KernelCandidate) : List (List ℚ) :=
  (cs.filter (fun c => decide (c.status = .GOOD))).filterMap
    (fun c => c.coeffs.map (renderKernel basis))

/-- Modelled from the spec (§4.8 step 2): rebuild the basis by PCA from the
current GOOD candidates. -/
def kernelPcaReduce (K : ℕ) (basis : List (List ℚ)) (cs : List KernelCandidate) :
    Except DiffimError (List (List ℚ)) :=
  pcaReduce K (goodKernelImages basis cs)

/-- C7: for every requested number of principal components K, running the
Kernel PCA Reducer when fewer than K+1 GOOD candidates exist raises
`InsufficientDataError` rather than producing a basis. -/
theorem kernelPca_insufficientData (K : ℕ) (basis : List (List ℚ))
    (cs : List KernelCandidate)
    (h : (cs.filter (fun c => decide (c.status = .GOOD))).length < K + 1) :
    kernelPcaReduce K basis cs = .error .insufficientData := by
  have hlen : (goodKernelImages basis cs).length ≤
      (cs.filter (fun c => decide (c.status = .GOOD))).length :=
    List.length_filterMap_le _ _
  rw [kernelPcaReduce, pcaReduce, if_pos (lt_of_le_of_lt hlen h)]

/-- Witness for C7: requesting K = 2 components from a cell set holding only
two GOOD candidates fails with `InsufficientDataError`. -/
theorem kernelPca_insufficientData_witness :
    kernelPcaReduce 2 [[1]]
      [⟨1, [], some [1], .GOOD⟩, ⟨2, [], some [2], .GOOD⟩, ⟨3, [], some [3], .BAD⟩] =
      .error .insufficientData :=
  kernelPca_insufficientData 2 [[1]] _ (by decide)

/-- An order-1 2-D spatial polynomial `a0 + ax·x + ay·y` — the
per-kernel-coefficient spatial model of §4.8 step 3 at the configuration of
`tests/SubtractExposures.py` `testAL` (`spatialKernelOrder` 1). -/
structure Poly1 where
  a0 : ℚ
  ax : ℚ
  ay : ℚ
deriving DecidableEq

/-- Evaluation of an order-1 spatial polynomial at image position (x, y). -/
def Poly1.eval (p : Poly1) (x y : ℚ) : ℚ :=
  p.a0 + p.ax * x + p.ay * y

/-- Modelled from the spec (§4.8 step 3 and §5, the C++ spatial solver is
not under src/): the spatial polynomial obtained by refitting the same data
after the image origin is shifted by `dy` in y (the `setXY0` second run of
`tests/SubtractExposures.py` `runXY0`, offset 1500).  Identical image
content and a deterministic least-squares fit force the refit to take the
same values at corresponding positions, `q.eval x (y - dy) = p.eval x y`,
which determines it uniquely (`spatialShift_refit` last conjunct) as the
composition written here: the zero-order term absorbs `ay·dy`, the
first-order terms are untouched. -/
def shiftRefit1 (p : Poly1) (dy : ℚ) : Poly1 :=
  ⟨p.a0 + p.ay * dy, p.ax, p.ay⟩

/-- Modelled from the spec: the order-0 background polynomial (the test sets
`spatialBgOrder` 0 — "already bg-subtracted") refit under the same origin
shift; a constant polynomial is unchanged by composition with a
translation. -/
def shiftRefit0 (b : ℚ) (dy : ℚ) : ℚ :=
  b + 0 * dy

/-- C1 counterexample: with the test's offset 1500, a kernel-coefficient
spatial polynomial with a nonzero y-term refits to different coefficients
(the zero-order term absorbs the offset) — so the kernel coefficients of the
two runs are NOT identical — while the order-0 background polynomial refits
to exactly the same coefficient — so the background does NOT differ in its
zero-order term. -/
theorem spatialShift_claim_false :
    shiftRefit1 ⟨0, 0, 1⟩ 1500 ≠ ⟨0, 0, 1⟩ ∧ shiftRefit0 5 1500 = 5 := by
  constructor
  · intro h
    have h0 := congrArg Poly1.a0 h
    norm_num [shiftRefit1] at h0
  · norm_num [shiftRefit0]

/-- C1 amended: two end-to-end runs on the same image content with the
origin shifted by dy produce spatial models that predict identically at
corresponding positions; every higher-order (first-order) spatial term of a
kernel-coefficient polynomial is equal between the runs, while its
zero-order term changes by exactly ay·dy — differing whenever ay·dy ≠ 0 —
and the order-0 background polynomial is equal in its only (zero-order)
term.  The refit polynomial is the unique one consistent with the shifted
frame. -/
theorem spatialShift_refit (p : Poly1) (dy : ℚ) :
    (shiftRefit1 p dy).ax = p.ax ∧
    (shiftRefit1 p dy).ay = p.ay ∧
    (shiftRefit1 p dy).a0 = p.a0 + p.ay * dy ∧
    (∀ x y, (shiftRefit1 p dy).eval x (y - dy) = p.eval x y) ∧
    (p.ay * dy ≠ 0 → (shiftRefit1 p dy).a0 ≠ p.a0) ∧
    (∀ b : ℚ, shiftRefit0 b dy = b) ∧
    (∀ q : Poly1, (∀ x y, q.eval x (y - dy) = p.eval x y) → q = shiftRefit1 p dy) := by
  refine ⟨rfl, rfl, rfl, ?_, ?_, ?_, ?_⟩
  · intro x y
    simp only [shiftRefit1, Poly1.eval]
    ring
  · intro hne heq
    simp only [shiftRefit1] at heq
    exact hne (by linarith)
  · intro b
    rw [shiftRefit0]
    ring
  · intro q hq
    obtain ⟨qa0, qax, qay⟩ := q
    have h00 := hq 0 dy
    have h10 := hq 1 dy
    have h01 := hq 0 (1 + dy)
    simp only [Poly1.eval] at h00 h10 h01
    ring_nf at h00 h10 h01
    simp only [shiftRefit1, Poly1.mk.injEq]
    refine ⟨by linarith, by linarith, by linarith⟩

/-- Witness for C1's amended statement at the test's concrete offset: the
zero-order kernel term differs between the runs, the background term does
not. -/
theorem spatialShift_refit_witness :
    (shiftRefit1 ⟨2, 3, 1⟩ 1500).a0 ≠ (2 : ℚ) ∧ shiftRefit0 (7 : ℚ) 1500 = 7 :=
  ⟨(spatialShift_refit ⟨2, 3, 1⟩ 1500).2.2.2.2.1 (by norm_num),
   (spatialShift_refit ⟨2, 3, 1⟩ 1500).2.2.2.2.2.1 7⟩

/-- An integer box with inclusive corners, empty when a max corner lies
below the corresponding min corner (`lsst.geom.Box2I`). -/
structure Box where
  x0 : ℤ
  y0 : ℤ
  x1 : ℤ
  y1 : ℤ
deriving DecidableEq

/-- `Box2I.isEmpty`. -/
def Box.isEmpty (b : Box) : Bool :=
  decide (b.x1 < b.x0 ∨ b.y1 < b.y0)

/-- `Box2I.clip`: intersection of two boxes. -/
def Box.clip (b other : Box) : Box :=
  ⟨max b.x0 other.x0, max b.y0 other.y0, min b.x1 other.x1, min b.y1 other.y1⟩

/-- Membership of a pixel position in a box. -/
def Box.contains (b : Box) (p : ℤ × ℤ) : Bool :=
  decide (b.x0 ≤ p.1 ∧ p.1 ≤ b.x1 ∧ b.y0 ≤ p.2 ∧ p.2 ≤ b.y1)

/-- A template pixel: value and variance planes that may hold NaN (modelled
as `none` — within `makeTemplateExposure` NaN arises only from the
initialization fill), plus a mask bit-plane. -/
structure TPix where
  val : Option ℚ
  mask : ℕ
  var : Option ℚ
deriving DecidableEq

/-- `afwImage.Mask.getPlaneBitMask("NO_DATA")`: a fixed nonzero bit. -/
def noDataMask : ℕ := 8

/-- The pixel written by the initialization fill
`coaddExposure.maskedImage.set(np.nan, NO_DATA, np.nan)`
(getTemplate.py line 237): NaN value, NO_DATA mask, NaN variance. -/
def noDataPix : TPix :=
  ⟨none, noDataMask, none⟩

/-- A masked image over pixel positions in the parent coordinate frame. -/
structure TImage where
  bbox : Box
  pix : ℤ × ℤ → TPix

/-- `lsst.skymap.PatchInfo` as consumed by `makeTemplateExposure`:
sequential patch number and outer bounding box (in coadd pixel frame). -/
structure PatchInfo where
  patchNumber : ℕ
  outerBBox : Box

/-- A retrieved coadd patch exposure: its pixel bounding box, pixels,
optional PSF and filter (both abstracted to tokens). -/
structure CoaddPatch where
  bbox : Box
  img : ℤ × ℤ → TPix
  psf : Option ℕ
  filter : ℕ

/-- Loop state of `makeTemplateExposure`: the exposure being assembled,
`nPatchesFound`, `coaddFilter` and `coaddPsf`. -/
structure TemplState where
  img : TImage
  nPatchesFound : ℕ
  coaddFilter : Option ℕ
  coaddPsf : Option ℕ

/-- `coaddExposure.maskedImage.assign(coaddPatch.maskedImage[overlapBox],
overlapBox)` (getTemplate.py line 299): overwrite exactly the pixels inside
`overlapBox` with the patch's pixels, leaving every other pixel untouched. -/
def assignBox (img : TImage) (patchImg : ℤ × ℤ → TPix) (box : Box) : TImage :=
  { img with pix := fun p => if box.contains p then patchImg p else img.pix p }

/-- Embedding of one iteration of the patch loop of
`GetCoaddAsTemplateTask.makeTemplateExposure` (getTemplate.py lines
241–306, non-dcr path; the dcr branch needs Gen2 butler I/O and stays
outside the embedding): skip the patch when its outer bbox clipped to the
coadd bbox is empty or when it was not retrieved into `availableCoadds`;
otherwise copy the overlap pixels, count the patch, and keep the first
filter and the first PSF encountered. -/
def processPatch (coaddBBox : Box) (avail : ℕ → Option CoaddPatch)
    (st : TemplState) (patchInfo : PatchInfo) : TemplState :=
  let patchSubBBox := patchInfo.outerBBox.clip coaddBBox
  if patchSubBBox.isEmpty then st
  else
    match avail patchInfo.patchNumber with
    | none => st
    | some coaddPatch =>
        let overlapBox := coaddPatch.bbox.clip coaddBBox
        { img := assignBox st.img coaddPatch.img overlapBox,
          nPatchesFound := st.nPatchesFound + 1,
          coaddFilter := st.coaddFilter.or (some coaddPatch.filter),
          coaddPsf := st.coaddPsf.or coaddPatch.psf }

/-- The initial loop state (getTemplate.py lines 236–240): a template image
over `coaddBBox` with every pixel (NaN, NO_DATA, NaN), zero patches found,
no filter, no PSF. -/
def initTemplState (coaddBBox : Box) : TemplState :=
  ⟨⟨coaddBBox, fun _ => noDataPix⟩, 0, none, none⟩

/-- The assembled template exposure returned on success. -/
structure TemplateExposure where
  img : TImage
  psf : ℕ
  filter : Option ℕ

/-- The two `RuntimeError`s `makeTemplateExposure` can raise. -/
inductive TemplateError where
  | noPatchesFound
  | noCoaddPsf
deriving DecidableEq

/-- Embedding of `GetCoaddAsTemplateTask.makeTemplateExposure`
(getTemplate.py lines 199–316, non-dcr path), with the sky geometry
abstracted: `coaddBBox` is the box accumulated from the sky corners,
`patchList` the overlap patches, `avail` the `availableCoadds` dictionary.
Raises `RuntimeError("No patches found!")` when `nPatchesFound` is 0 and
`RuntimeError("No coadd Psf found!")` when no copied patch carried a PSF
(lines 308–312); otherwise returns the assembled exposure. -/
def makeTemplateExposure (coaddBBox : Box) (patchList : List PatchInfo)
    (avail : ℕ → Option CoaddPatch) : Except TemplateError TemplateExposure :=
  let st := patchList.foldl (processPatch coaddBBox avail) (initTemplState coaddBBox)
  if st.nPatchesFound = 0 then .error .noPatchesFound
  else
    match st.coaddPsf with
    | none => .error .noCoaddPsf
    | some psf => .ok ⟨st.img, psf, st.coaddFilter⟩

/-- The patches whose pixels are actually copied into the template: those
that survive both loop guards (nonempty clipped outer box, retrieved). -/
def copiedCoadds (coaddBBox : Box) (avail : ℕ → Option CoaddPatch)
    (patchList : List PatchInfo) : List CoaddPatch :=
  patchList.filterMap (fun patchInfo =>
    if (patchInfo.outerBBox.clip coaddBBox).isEmpty then none
    else avail patchInfo.patchNumber)

theorem findSome?_cons_or {α β : Type} (f : α → Option β) (a : α) (l : List α) :
    List.findSome? f (a :: l) = (f a).or (List.findSome? f l) := by
  rw [List.findSome?_cons]
  cases f a <;> simp [Option.or]

/-- Fold invariant of the patch loop of `makeTemplateExposure`: the patch
count grows by the number of copied patches, the PSF is the first PSF among
the copied patches, the bounding box never changes, and a pixel lying in no
copied patch's clipped box is never overwritten. -/
theorem processPatch_foldl_spec (coaddBBox : Box) (avail : ℕ → Option CoaddPatch)
    (patchList : List PatchInfo) (s0 : TemplState) :
    (patchList.foldl (processPatch coaddBBox avail) s0).nPatchesFound =
      s0.nPatchesFound + (copiedCoadds coaddBBox avail patchList).length ∧
    (patchList.foldl (processPatch coaddBBox avail) s0).coaddPsf =
      s0.coaddPsf.or
        ((copiedCoadds coaddBBox avail patchList).findSome? (fun c => c.psf)) ∧
    (patchList.foldl (processPatch coaddBBox avail) s0).img.bbox = s0.img.bbox ∧
    ∀ q : ℤ × ℤ,
      (∀ c ∈ copiedCoadds coaddBBox avail patchList,
        (c.bbox.clip coaddBBox).contains q = false) →
      (patchList.foldl (processPatch coaddBBox avail) s0).img.pix q = s0.img.pix q := by
  induction patchList generalizing s0 with
  | nil =>
      simp [copiedCoadds]
  | cons patchInfo rest ih =>
      rw [List.foldl_cons]
      by_cases he : (patchInfo.outerBBox.clip coaddBBox).isEmpty = true
      · have hstep : processPatch coaddBBox avail s0 patchInfo = s0 := by
          rw [processPatch]
          simp [he]
        have hcop : copiedCoadds coaddBBox avail (patchInfo :: rest) =
            copiedCoadds coaddBBox avail rest := by
          simp [copiedCoadds, List.filterMap_cons, he]
        rw [hstep, hcop]
        exact ih s0
      · cases hav : avail patchInfo.patchNumber with
        | none =>
            have hstep : processPatch coaddBBox avail s0 patchInfo = s0 := by
              rw [processPatch]
              simp [he, hav]
            have hcop : copiedCoadds coaddBBox avail (patchInfo :: rest) =
                copiedCoadds coaddBBox avail rest := by
              simp [copiedCoadds, List.filterMap_cons, he, hav]
            rw [hstep, hcop]
            exact ih s0
        | some c =>
            have hstep : processPatch coaddBBox avail s0 patchInfo =
                ⟨assignBox s0.img c.img (c.bbox.clip coaddBBox),
                 s0.nPatchesFound + 1,
                 s0.coaddFilter.or (some c.filter),
                 s0.coaddPsf.or c.psf⟩ := by
              rw [processPatch]
              simp [he, hav]
            have hcop : copiedCoadds coaddBBox avail (patchInfo :: rest) =
                c :: copiedCoadds coaddBBox avail rest := by
              simp [copiedCoadds, List.filterMap_cons, he, hav]
            rw [hstep, hcop]
            obtain ⟨ih1, ih2, ih3, ih4⟩ := ih
              ⟨assignBox s0.img c.img (c.bbox.clip coaddBBox),
               s0.nPatchesFound + 1,
               s0.coaddFilter.or (some c.filter),
               s0.coaddPsf.or c.psf⟩
            refine ⟨?_, ?_, ?_, ?_⟩
            · rw [ih1]
              simp only [List.length_cons]
              omega
            · rw [ih2, findSome?_cons_or, Option.or_assoc]
            · rw [ih3]
              rfl
            · intro q hq
              have hqc : (c.bbox.clip coaddBBox).contains q = false :=
                hq c (List.mem_cons_self c _)
              have hqrest := ih4 q (fun c' hc' => hq c' (List.mem_cons_of_mem _ hc'))
              rw [hqrest]
              show (if (c.bbox.clip coaddBBox).contains q then c.img q else s0.img.pix q) =
                s0.img.pix q
              rw [hqc]
              rfl

/-- C9: `makeTemplateExposure` raises `RuntimeError` ("No patches found!")
exactly when the number of patches whose pixels were actually copied is
zero, raises `RuntimeError` ("No coadd Psf found!") exactly when patches
were copied but none of them carried a PSF, and returns a template exposure
exactly when at least one patch contributed pixels and one of the
contributing patches had a PSF. -/
theorem makeTemplateExposure_error_conditions (coaddBBox : Box)
    (patchList : List PatchInfo) (avail : ℕ → Option CoaddPatch) :
    (makeTemplateExposure coaddBBox patchList avail = .error .noPatchesFound ↔
      copiedCoadds coaddBBox avail patchList = []) ∧
    (makeTemplateExposure coaddBBox patchList avail = .error .noCoaddPsf ↔
      copiedCoadds coaddBBox avail patchList ≠ [] ∧
      ∀ c ∈ copiedCoadds coaddBBox avail patchList, c.psf = none) ∧
    ((∃ e, makeTemplateExposure coaddBBox patchList avail = .ok e) ↔
      copiedCoadds coaddBBox avail patchList ≠ [] ∧
      ∃ c ∈ copiedCoadds coaddBBox avail patchList, c.psf ≠ none) := by
  obtain ⟨h1, h2, -, -⟩ :=
    processPatch_foldl_spec coaddBBox avail patchList (initTemplState coaddBBox)
  simp only [makeTemplateExposure]
  rw [h1, h2]
  simp only [initTemplState, Nat.zero_add]
  by_cases hnil : copiedCoadds coaddBBox avail patchList = []
  · rw [hnil]
    simp
  · have hlen : ¬((copiedCoadds coaddBBox avail patchList).length = 0) := by
      rw [List.length_eq_zero]
      exact hnil
    rw [if_neg hlen]
    cases hf : (copiedCoadds coaddBBox avail patchList).findSome? (fun c => c.psf) with
    | none =>
        have hall : ∀ c ∈ copiedCoadds coaddBBox avail patchList, c.psf = none :=
          List.findSome?_eq_none_iff.mp hf
        simp only [Option.or]
        refine ⟨by simp [hnil], ?_, ?_⟩
        · simp only [eq_self_iff_true, true_iff]
          exact ⟨hnil, hall⟩
        · constructor
          · rintro ⟨e, he⟩
            exact absurd he (by simp)
          · rintro ⟨-, c, hc, hpsf⟩
            exact absurd (hall c hc) hpsf
    | some psf =>
        simp only [Option.or]
        refine ⟨by simp [hnil], ?_, ?_⟩
        · constructor
          · intro he
            exact absurd he (by simp)
          · rintro ⟨-, hall⟩
            rw [List.findSome?_eq_none_iff.mpr hall] at hf
            exact absurd hf (by simp)
        · constructor
          · rintro -
            refine ⟨hnil, ?_⟩
            obtain ⟨c, hc, hcp⟩ := List.exists_of_findSome?_eq_some hf
            exact ⟨c, hc, by rw [hcp]; simp⟩
          · rintro -
            exact ⟨_, rfl⟩

/-- The template image assembled by the patch loop (the image of the
exposure `makeTemplateExposure` returns when it succeeds). -/
def templateImage (coaddBBox : Box) (patchList : List PatchInfo)
    (avail : ℕ → Option CoaddPatch) : TImage :=
  (patchList.foldl (processPatch coaddBBox avail) (initTemplState coaddBBox)).img

/-- C10: the assembled template is initialized with every pixel
(NaN, NO_DATA, NaN); each copied patch overwrites only pixels inside its
clipped bounding box; hence every pixel lying in no copied patch's clipped
box still holds (NaN, NO_DATA, NaN) in the assembled image, which is exactly
the image of any successfully returned template exposure. -/
theorem templateImage_uncovered_noData (coaddBBox : Box)
    (patchList : List PatchInfo) (avail : ℕ → Option CoaddPatch) (q : ℤ × ℤ)
    (hq : ∀ c ∈ copiedCoadds coaddBBox avail patchList,
      (c.bbox.clip coaddBBox).contains q = false) :
    (∀ p : ℤ × ℤ, (initTemplState coaddBBox).img.pix p = noDataPix) ∧
    (templateImage coaddBBox patchList avail).pix q = noDataPix ∧
    ∀ e, makeTemplateExposure coaddBBox patchList avail = .ok e →
      e.img = templateImage coaddBBox patchList avail := by
  obtain ⟨-, -, -, h4⟩ :=
    processPatch_foldl_spec coaddBBox avail patchList (initTemplState coaddBBox)
  refine ⟨fun p => rfl, ?_, ?_⟩
  · rw [templateImage, h4 q hq]
    rfl
  · intro e he
    simp only [makeTemplateExposure] at he
    split at he
    · exact absurd he (by simp)
    · split at he
      · exact absurd he (by simp)
      · injection he with he2
        rw [← he2]
        rfl

/-- A concrete one-patch scenario for exercising the template assembly: a
4×4 coadd box and a single available 2×2 patch in its lower corner,
carrying a PSF. -/
def onePatchAvail : ℕ → Option CoaddPatch := fun n =>
  if n = 0 then some ⟨⟨0, 0, 1, 1⟩, fun _ => ⟨some 2, 0, some 1⟩, some 1, 0⟩ else none

/-- Witness for C10: in the one-patch scenario the pixel (3, 3) lies outside
the copied patch's clipped box and still holds (NaN, NO_DATA, NaN) in the
assembled template. -/
theorem templateImage_uncovered_noData_witness :
    (templateImage ⟨0, 0, 3, 3⟩ [⟨0, ⟨0, 0, 1, 1⟩⟩] onePatchAvail).pix (3, 3) = noDataPix :=
  (templateImage_uncovered_noData ⟨0, 0, 3, 3⟩ [⟨0, ⟨0, 0, 1, 1⟩⟩] onePatchAvail (3, 3)
    (by decide)).2.1
